import Mathlib

/-!
Verification development for the content-stream parser/serializer of
`src/qpdf/parsers.cpp`: the `OperandGrouper` state machine that groups a
token stream into instructions, the `ContentStreamInstruction` /
`ContentStreamInlineImage` records with their indexed access, and the
`unparse_content_stream` serializer.

Bytes are modelled as Lean `String`s; a QPDFObjectHandle token is modelled
by its type tag (operator vs. other) together with its `unparseBinary`
rendering.
-/

set_option linter.unusedVariables false

namespace Pikepdf

/-- A QPDFObjectHandle as this subsystem observes it: either an operator
token carrying its operator name, or any other (operand) object carrying
its `unparseBinary` byte rendering. -/
inductive Obj where
  | op (name : String)
  | operand (bytes : String)
deriving DecidableEq, Repr

/-- `QPDFObjectHandle::unparseBinary`: an operator unparses to its name,
any other object to its byte rendering. -/
def Obj.unparseBinary : Obj → String
  | .op name => name
  | .operand bytes => bytes

/-- `QPDFObjectHandle::isOperator` / `getTypeCode() == ot_operator`. -/
def Obj.isOperator : Obj → Bool
  | .op _ => true
  | .operand _ => false

/-- `QPDFObjectHandle::getOperatorValue` (only called on operators;
returns the empty string otherwise). -/
def Obj.operatorValue : Obj → String
  | .op name => name
  | .operand _ => ""

/-- `ContentStreamInstruction`: an (operands, operator) pair
(`parsers.cpp` lines 35-39). -/
structure ContentStreamInstruction where
  operands : List Obj
  operator_ : Obj
deriving DecidableEq, Repr

/-- `ContentStreamInlineImage`: (metadata token list, raw image payload)
(`parsers.cpp` lines 50-54). -/
structure ContentStreamInlineImage where
  image_metadata : List Obj
  image_data : Obj
deriving DecidableEq, Repr

/-- An element of the grouper's output list `instructions`. -/
inductive Instr where
  | instr (csi : ContentStreamInstruction)
  | inlineImage (csii : ContentStreamInlineImage)
deriving DecidableEq, Repr

/-- The inner loop of `operator<<(std::ostream&, ContentStreamInstruction&)`
(lines 43-45): each operand's `unparseBinary` followed by one space. -/
def renderOperands : List Obj → String
  | [] => ""
  | o :: rest => o.unparseBinary ++ " " ++ renderOperands rest

/-- `operator<<(std::ostream&, ContentStreamInstruction&)` (lines 41-48):
operands each followed by a space, then the operator's bytes. -/
def renderCSI (csi : ContentStreamInstruction) : String :=
  renderOperands csi.operands ++ csi.operator_.unparseBinary

/-- Modelled from the spec: the external `PdfInlineImage` object built
from `(image_data, image_metadata)`; its own `unparse` method renders the
raw `BI <metadata> ID <data> EI` byte block. The class itself lives in
the Python layer, outside this file's source. -/
structure PdfInlineImage where
  image_data : Obj
  image_metadata : List Obj
deriving DecidableEq, Repr

/-- Modelled from the spec: `PdfInlineImage.unparse`, the inline-image
object's own byte-serialization, rendering the `BI ... ID <data> EI`
block. -/
def PdfInlineImage.unparse (ii : PdfInlineImage) : String :=
  "BI " ++ renderOperands ii.image_metadata ++ "ID " ++
    ii.image_data.unparseBinary ++ " EI"

/-- `ContentStreamInlineImage::get_inline_image` (lines 56-64): builds a
`PdfInlineImage` from the stored payload and metadata. -/
def ContentStreamInlineImage.get_inline_image
    (csii : ContentStreamInlineImage) : PdfInlineImage :=
  ⟨csii.image_data, csii.image_metadata⟩

/-- `ContentStreamInlineImage::get_operands` (lines 66-71): a one-element
list holding the inline image object. -/
def ContentStreamInlineImage.get_operands
    (csii : ContentStreamInlineImage) : List PdfInlineImage :=
  [csii.get_inline_image]

/-- `ContentStreamInlineImage::get_operator` (lines 73-76): the fixed
pseudo-operator. -/
def ContentStreamInlineImage.get_operator
    (csii : ContentStreamInlineImage) : Obj :=
  Obj.op "INLINE IMAGE"

/-- `operator<<(std::ostream&, ContentStreamInlineImage&)` (lines 78-84):
delegates to the inline image object's own `unparse`. -/
def renderCSII (csii : ContentStreamInlineImage) : String :=
  csii.get_inline_image.unparse

/-- The `OperandGrouper` state (`parsers.h` fields used by
`parsers.cpp`). `warning` is a plain string, empty when unset, exactly as
in the C++ member. -/
structure OperandGrouper where
  whitelist : List String
  tokens : List Obj
  inline_metadata : List Obj
  parsing_inline_image : Bool
  instructions : List Instr
  warning : String
  count : Nat
deriving DecidableEq, Repr

/-- The `std::getline(f, s, ' ')` loop of the `OperandGrouper`
constructor (lines 89-94): split on single spaces; `getline` fails only
when it extracts no characters at end of input, so an empty input yields
no fields and a trailing space yields no trailing empty field. -/
def getlineSplitAux : List Char → List Char → List String
  | [], acc => [String.mk acc.reverse]
  | c :: cs, acc =>
    if c = ' ' then
      match cs with
      | [] => [String.mk acc.reverse]
      | _ :: _ => String.mk acc.reverse :: getlineSplitAux cs []
    else getlineSplitAux cs (c :: acc)

/-- Whitelist construction from the space-separated operators string. -/
def getlineSplit (s : String) : List String :=
  match s.toList with
  | [] => []
  | cs => getlineSplitAux cs []

/-- `OperandGrouper::OperandGrouper` (lines 86-95): parse the
space-separated operator string into the whitelist; all other state
starts empty / false / zero. -/
def OperandGrouper.init (operators : String) : OperandGrouper :=
  { whitelist := getlineSplit operators
    tokens := []
    inline_metadata := []
    parsing_inline_image := false
    instructions := []
    warning := ""
    count := 0 }

/-- `op[0] == 'q' || op[0] == 'Q'` (line 106); for an empty operator name
`op[0]` is the NUL terminator in C++, which is neither. -/
def firstIsQ (op : String) : Bool :=
  match op.toList with
  | [] => false
  | c :: _ => c = 'q' || c = 'Q'

/-- The whitelist filter of `OperandGrouper::handleObject`
(lines 105-117): true when the operator (and its collected operands) must
be discarded. -/
def filterDiscards (wl : List String) (op : String) : Bool :=
  if wl.isEmpty then false
  else if firstIsQ op then !(wl.contains "q" || wl.contains "Q")
  else !(wl.contains op)

/-- `OperandGrouper::handleObject` (lines 97-136). On the `EI` branch the
source reads `this->tokens[0]` without a guard (undefined behaviour on an
empty buffer); the embedding uses `headD` with a default there. -/
def OperandGrouper.handleObject (g : OperandGrouper) (obj : Obj) :
    OperandGrouper :=
  match obj with
  | Obj.op opName =>
    let g1 := { g with count := g.count + 1 }
    if filterDiscards g1.whitelist opName then
      { g1 with tokens := [] }
    else if opName = "BI" then
      { g1 with parsing_inline_image := true, tokens := [] }
    else if g1.parsing_inline_image then
      if opName = "ID" then
        { g1 with inline_metadata := g1.tokens, tokens := [] }
      else if opName = "EI" then
        { g1 with
          instructions := g1.instructions ++
            [Instr.inlineImage
              ⟨g1.inline_metadata, g1.tokens.headD (Obj.operand "")⟩]
          inline_metadata := []
          tokens := [] }
      else
        { g1 with tokens := [] }
    else
      { g1 with
        instructions := g1.instructions ++
          [Instr.instr ⟨g1.tokens, Obj.op opName⟩]
        tokens := [] }
  | Obj.operand b =>
    { g with count := g.count + 1, tokens := g.tokens ++ [Obj.operand b] }

/-- `OperandGrouper::handleEOF` (lines 138-142): set the warning when
operands remain buffered; nothing else changes. -/
def OperandGrouper.handleEOF (g : OperandGrouper) : OperandGrouper :=
  if g.tokens.isEmpty then g
  else { g with warning := "Unexpected end of stream" }

/-- A whole parse: construct the grouper from the operators string, feed
every token, then signal end of stream. -/
def runGrouper (operators : String) (stream : List Obj) : OperandGrouper :=
  (stream.foldl OperandGrouper.handleObject
    (OperandGrouper.init operators)).handleEOF

/-- A Python value as seen by `unparse_content_stream`'s fallback path:
text, raw bytes, a QPDF object handle, a `PdfInlineImage` instance, or a
generic sequence of further values. -/
inductive PyVal where
  | str (s : String)
  | bytes (b : String)
  | obj (o : Obj)
  | iimage (ii : PdfInlineImage)
  | list (xs : List PyVal)

/-- One item of the iterable handed to `unparse_content_stream`: a native
`ContentStreamInstruction`, a native `ContentStreamInlineImage`, or a
generic Python sequence (the fallback path, line 175 onward). -/
inductive CSItem where
  | native (csi : ContentStreamInstruction)
  | nativeII (csii : ContentStreamInlineImage)
  | fallback (elems : List PyVal)

/-- The errors `unparse_content_stream` can raise: `py::value_error`
(malformed instruction), `py::type_error` (operator type mismatch),
`py::cast_error` (a value outside the accepted shapes), an index error
from an empty operand sequence, and failures of the external
`objecthandle_encode` service. -/
inductive SerError where
  | malformed (msg : String)
  | typeMismatch (msg : String)
  | castError
  | indexError
  | encodeError
deriving DecidableEq, Repr

/-- `std::string(s).c_str()` handed to `QPDFObjectHandle::newOperator`:
the C string stops at the first NUL byte. -/
def cStr (s : String) : String :=
  String.mk (s.toList.takeWhile (fun c => c ≠ Char.ofNat 0))

/-- Modelled from the spec: the external value-encoding service
`objecthandle_encode` (defined in the bindings layer, not in this source
file), which normalizes arbitrary operand-like values into the internal
Value type; text and raw bytes become document string objects (rendered
in parentheses), object handles pass through, anything the service cannot
encode fails. -/
def objecthandle_encode : PyVal → Except SerError Obj
  | .obj o => .ok o
  | .str s => .ok (Obj.operand ("(" ++ s ++ ")"))
  | .bytes b => .ok (Obj.operand ("(" ++ b ++ ")"))
  | .iimage _ => .error .encodeError
  | .list _ => .error .encodeError

/-- Resolution of the fallback item's second element into an operator
handle (lines 185-202): text and raw bytes are turned into a new
operator token from their content; any other value must already be an
operator-typed handle, else `py::type_error`; values that cannot cast to
a handle at all raise `py::cast_error`. `n` is the serializer's fallback
counter, a C `uint`, rendered modulo 2^32. -/
def resolveOperator (n : Nat) : PyVal → Except SerError Obj
  | .str s => .ok (Obj.op (cStr s))
  | .bytes b => .ok (Obj.op (cStr b))
  | .obj o =>
    if o.isOperator then .ok o
    else .error (.typeMismatch
      ("At content stream instruction " ++ toString (n % 4294967296) ++
        ", the operator is not of type pikepdf.Operator, bytes or str"))
  | .iimage _ => .error .castError
  | .list _ => .error .castError

/-- `py::reinterpret_borrow<py::sequence>` on the fallback item's first
element: only a generic sequence is modelled; other shapes fail the
sequence protocol. -/
def pyAsSeq : PyVal → Except SerError (List PyVal)
  | .list xs => .ok xs
  | _ => .error .castError

/-- The operand loop of the fallback path (lines 217-220): each operand
is normalized by `objecthandle_encode` and written followed by one
space. -/
def unparseFallbackOperands : List PyVal → Except SerError String
  | [] => .ok ""
  | v :: vs => do
    let o ← objecthandle_encode v
    let rest ← unparseFallbackOperands vs
    .ok (o.unparseBinary ++ " " ++ rest)

/-- The fallback path of `unparse_content_stream` (lines 175-224) for one
item, with `n` the count of previously completed fallback items. -/
def fallbackUnparse (n : Nat) (elems : List PyVal) : Except SerError String :=
  match elems with
  | [operands0, operator0] => do
    let op ← resolveOperator n operator0
    if op.operatorValue = "INLINE IMAGE" then do
      let operands ← pyAsSeq operands0
      match operands with
      | [] => .error .indexError
      | first :: _ =>
        match first with
        | .iimage ii => .ok ii.unparse
        | _ => .error (.malformed
            ("Expected PdfInlineImage as operand for instruction " ++
              toString (n % 4294967296)))
    else do
      let operands ← pyAsSeq operands0
      let body ← unparseFallbackOperands operands
      .ok (body ++ op.unparseBinary)
  | _ => .error (.malformed
      ("Wrong number of operands at content stream instruction " ++
        toString (n % 4294967296) ++ "; expected 2"))

/-- One iteration of the `unparse_content_stream` loop (lines 154-225)
over the state (accumulated output, pending delimiter, fallback
counter): the delimiter is written first, then the item by whichever of
the three paths applies; only a completed fallback item increments the
counter (line 224). -/
def unparseStep (st : String × String × Nat) (item : CSItem) :
    Except SerError (String × String × Nat) :=
  let acc := st.1 ++ st.2.1
  match item with
  | .native csi => .ok (acc ++ renderCSI csi, "\n", st.2.2)
  | .nativeII csii => .ok (acc ++ renderCSII csii, "\n", st.2.2)
  | .fallback elems =>
    match fallbackUnparse st.2.2 elems with
    | .ok s => .ok (acc ++ s, "\n", st.2.2 + 1)
    | .error e => .error e

/-- `unparse_content_stream` (lines 147-227): fold the loop over the
items starting from empty output, empty delimiter and counter zero; on
success return the accumulated bytes. -/
def unparse_content_stream (items : List CSItem) : Except SerError String :=
  (items.foldlM unparseStep ("", "", 0)).map (fun st => st.1)

/-- Injection of the grouper's output into the serializer's item type
(the native instruction objects the grouper appends to its list). -/
def instrToItem : Instr → CSItem
  | .instr csi => .native csi
  | .inlineImage csii => .nativeII csii

/-- The rendering `unparse_content_stream` gives a native item. -/
def renderInstr : Instr → String
  | .instr csi => renderCSI csi
  | .inlineImage csii => renderCSII csii

/-! ### Well-formed streams as lists of runs

A well-formed content stream is a concatenation of runs, each a list of
operand tokens followed by one operator.  A run is encoded as a pair of
the operand byte renderings and the operator name. -/

/-- The token sequence of one `(operands..., operator)` run. -/
def runTokens (r : List String × String) : List Obj :=
  r.1.map Obj.operand ++ [Obj.op r.2]

/-- The token stream made of the given runs, in order. -/
def streamOf (runs : List (List String × String)) : List Obj :=
  runs.foldr (fun r acc => runTokens r ++ acc) []

/-- The instruction that grouping one run should produce. -/
def mkInstr (r : List String × String) : Instr :=
  Instr.instr ⟨r.1.map Obj.operand, Obj.op r.2⟩

/-- Joining a list of byte strings with a single separator, no leading
or trailing separator. -/
def joinSep (sep : String) : List String → String
  | [] => ""
  | [s] => s
  | s :: rest => s ++ sep ++ joinSep sep rest

/-- The whitespace-normalized rendering of a well-formed stream, written
directly from the specification: within an instruction the token byte
forms are separated by single spaces with the operator last, and
instructions are joined by single newlines. -/
def specRender (runs : List (List String × String)) : String :=
  joinSep "\n" (runs.map (fun r => joinSep " " (r.1 ++ [r.2])))

/-! ### Grouper lemmas -/

theorem handleObject_operand (g : OperandGrouper) (b : String) :
    OperandGrouper.handleObject g (Obj.operand b) =
      { g with count := g.count + 1, tokens := g.tokens ++ [Obj.operand b] } :=
  rfl

theorem foldl_operands (bs : List String) (g : OperandGrouper) :
    (bs.map Obj.operand).foldl OperandGrouper.handleObject g =
      { g with tokens := g.tokens ++ bs.map Obj.operand,
               count := g.count + bs.length } := by
  induction bs generalizing g with
  | nil => simp
  | cons b rest ih =>
    simp only [List.map_cons, List.foldl_cons, handleObject_operand, ih,
      List.length_cons]
    simp [List.append_assoc]
    omega

theorem handleObject_op_clean (g : OperandGrouper) (name : String)
    (h1 : g.whitelist = []) (h2 : g.parsing_inline_image = false)
    (h3 : name ≠ "BI") :
    OperandGrouper.handleObject g (Obj.op name) =
      { g with count := g.count + 1,
               instructions :=
                 g.instructions ++ [Instr.instr ⟨g.tokens, Obj.op name⟩],
               tokens := [] } := by
  simp [OperandGrouper.handleObject, filterDiscards, h1, h2, h3]

/-- Grouping a well-formed stream with an empty whitelist, starting from
a state with an empty pending buffer and outside an inline image: one
instruction per run is appended, the buffer ends empty, and the rest of
the state except the token count is untouched. -/
theorem foldl_streamOf (runs : List (List String × String))
    (g : OperandGrouper) (h1 : g.whitelist = [])
    (h2 : g.parsing_inline_image = false) (h3 : g.tokens = [])
    (hm : ∀ r ∈ runs, r.2 ≠ "BI") :
    (streamOf runs).foldl OperandGrouper.handleObject g =
      { g with instructions := g.instructions ++ runs.map mkInstr,
               tokens := [],
               count := g.count + (streamOf runs).length } := by
  induction runs generalizing g with
  | nil =>
    cases g
    simp_all [streamOf]
  | cons r rest ih =>
    have hstream : streamOf (r :: rest) = runTokens r ++ streamOf rest := rfl
    rw [hstream, List.foldl_append]
    have hrun : (runTokens r).foldl OperandGrouper.handleObject g =
        { g with count := g.count + r.1.length + 1,
                 instructions := g.instructions ++ [mkInstr r],
                 tokens := [] } := by
      rw [runTokens, List.foldl_append, foldl_operands]
      simp only [List.foldl_cons, List.foldl_nil]
      rw [handleObject_op_clean _ _ (by simpa using h1) (by simpa using h2)
        (hm r (List.mem_cons_self r rest))]
      simp [h3, mkInstr]
    rw [hrun, ih _ (by simpa using h1) (by simpa using h2) rfl
      (fun x hx => hm x (List.mem_cons_of_mem r hx))]
    cases g
    simp_all [List.append_assoc, List.length_append, runTokens]
    omega

/-- Shared fact behind the grouping claims: with an empty whitelist, a
well-formed stream whose operators are never `BI` groups into exactly
one instruction per run, holding that run's operands. -/
theorem runGrouper_streamOf (runs : List (List String × String))
    (hm : ∀ r ∈ runs, r.2 ≠ "BI") :
    (runGrouper "" (streamOf runs)).instructions = runs.map mkInstr := by
  rw [runGrouper, foldl_streamOf _ _ rfl rfl rfl hm]
  simp [OperandGrouper.handleEOF, OperandGrouper.init]

/-! ### Serializer lemmas -/

theorem unparseStep_instrToItem (x : Instr) (acc d : String) (n : Nat) :
    unparseStep (acc, d, n) (instrToItem x) =
      .ok (acc ++ d ++ renderInstr x, "\n", n) := by
  cases x <;> rfl

theorem joinSep_cons₂ (sep a b : String) (l : List String) :
    joinSep sep (a :: b :: l) = a ++ sep ++ joinSep sep (b :: l) := rfl

/-- Serializing a nonempty list of native instruction items appends the
pending delimiter followed by the renderings joined with single
newlines; the fallback counter is untouched. -/
theorem foldlM_native_cons (x : Instr) (l : List Instr) (acc d : String)
    (n : Nat) :
    List.foldlM unparseStep (acc, d, n) ((x :: l).map instrToItem) =
      .ok (acc ++ d ++ joinSep "\n" ((x :: l).map renderInstr), "\n", n) := by
  induction l generalizing x acc d with
  | nil =>
    simp [List.foldlM, unparseStep_instrToItem, joinSep]
  | cons y rest ih =>
    have hstep : List.foldlM unparseStep (acc, d, n)
        ((x :: y :: rest).map instrToItem) =
        List.foldlM unparseStep (acc ++ d ++ renderInstr x, "\n", n)
          ((y :: rest).map instrToItem) := by
      rw [List.map_cons, List.foldlM_cons, unparseStep_instrToItem]
      rfl
    rw [hstep, ih]
    simp [joinSep_cons₂, String.append_assoc]

/-- Serializing the grouper's native output: renderings joined by single
newlines, no leading and no trailing newline, empty input giving empty
output. -/
theorem unparse_map_instrToItem (l : List Instr) :
    unparse_content_stream (l.map instrToItem) =
      .ok (joinSep "\n" (l.map renderInstr)) := by
  cases l with
  | nil => rfl
  | cons x rest =>
    rw [unparse_content_stream, foldlM_native_cons]
    rfl

theorem renderOperands_join (bs : List String) (s : String) :
    renderOperands (bs.map Obj.operand) ++ s = joinSep " " (bs ++ [s]) := by
  induction bs with
  | nil => simp [renderOperands, joinSep]
  | cons b rest ih =>
    cases rest with
    | nil =>
      simp [renderOperands, joinSep, Obj.unparseBinary, String.append_assoc]
    | cons b2 rest2 =>
      have h1 : renderOperands ((b :: b2 :: rest2).map Obj.operand) ++ s =
          b ++ " " ++ (renderOperands ((b2 :: rest2).map Obj.operand) ++ s) := by
        simp [renderOperands, Obj.unparseBinary, String.append_assoc]
      rw [h1, ih]
      simp [joinSep_cons₂, List.cons_append, String.append_assoc]

theorem renderInstr_mkInstr (r : List String × String) :
    renderInstr (mkInstr r) = joinSep " " (r.1 ++ [r.2]) := by
  rw [mkInstr, renderInstr, renderCSI, ← renderOperands_join]
  rfl

/-! ### Claim theorems -/

/-- C1 (counterexample): the claim quantifies over every token stream
with no `BI`/`ID`/`EI` operators, but a stream consisting of one operand
and no operator groups to no instructions at all, so the serializer
yields the empty byte string while every whitespace-normalized rendering
of the stream still contains the operand's byte form `"x"`. -/
theorem claim_c1_counterexample :
    unparse_content_stream
        (((runGrouper "" [Obj.operand "x"]).instructions).map instrToItem) =
        Except.ok "" ∧
      Obj.unparseBinary (Obj.operand "x") = "x" ∧ ("" : String) ≠ "x" :=
  ⟨rfl, rfl, by decide⟩

/-- C1 (amended): for every token stream consisting of complete
`(operands..., operator)` runs, containing no `BI`/`ID`/`EI` operators,
grouped with an empty whitelist, serializing the grouper's instruction
sequence with `unparse_content_stream` reproduces exactly the
whitespace-normalized rendering of the stream: each instruction's
operand byte forms separated by single spaces, the operator last, and
instructions joined by single newlines. -/
theorem claim_c1_roundtrip (runs : List (List String × String))
    (hm : ∀ r ∈ runs, r.2 ≠ "BI" ∧ r.2 ≠ "ID" ∧ r.2 ≠ "EI") :
    unparse_content_stream
      (((runGrouper "" (streamOf runs)).instructions).map instrToItem) =
      Except.ok (specRender runs) := by
  rw [runGrouper_streamOf _ (fun r hr => (hm r hr).1),
    unparse_map_instrToItem, List.map_map]
  simp [specRender, Function.comp_def, renderInstr_mkInstr]

/-- Witness for C1 at the stream `a b Tj q`. -/
theorem claim_c1_roundtrip_witness :
    (∀ r ∈ [(["a", "b"], "Tj"), (([] : List String), "q")],
        r.2 ≠ "BI" ∧ r.2 ≠ "ID" ∧ r.2 ≠ "EI") ∧
      unparse_content_stream
        (((runGrouper ""
          (streamOf [(["a", "b"], "Tj"), (([] : List String), "q")])).instructions).map
            instrToItem) =
        Except.ok "a b Tj\nq" :=
  ⟨by decide, claim_c1_roundtrip [(["a", "b"], "Tj"), ([], "q")] (by decide)⟩

/-- C2: for every token stream consisting of well-formed
`(operands..., operator)` runs, with an empty whitelist and no
inline-image markers, the grouper emits exactly one instruction per
operator token, holding exactly the non-operator tokens received since
the previous operator. -/
theorem claim_c2_one_instruction_per_run (runs : List (List String × String))
    (hm : ∀ r ∈ runs, r.2 ≠ "BI" ∧ r.2 ≠ "ID" ∧ r.2 ≠ "EI") :
    (runGrouper "" (streamOf runs)).instructions = runs.map mkInstr :=
  runGrouper_streamOf runs (fun r hr => (hm r hr).1)

/-- Witness for C2 at the stream `a b Tj q`. -/
theorem claim_c2_one_instruction_per_run_witness :
    (∀ r ∈ [(["a", "b"], "Tj"), (([] : List String), "q")],
        r.2 ≠ "BI" ∧ r.2 ≠ "ID" ∧ r.2 ≠ "EI") ∧
      (runGrouper ""
        (streamOf [(["a", "b"], "Tj"), (([] : List String), "q")])).instructions =
        [Instr.instr ⟨[Obj.operand "a", Obj.operand "b"], Obj.op "Tj"⟩,
         Instr.instr ⟨[], Obj.op "q"⟩] :=
  ⟨by decide,
    claim_c2_one_instruction_per_run [(["a", "b"], "Tj"), ([], "q")] (by decide)⟩

/-- C3 (counterexample): on `[m1, m2, BI, d1, ID, p, EI]` the grouper
stores `[d1]` — the tokens between `BI` and `ID` — as the inline image's
metadata, not `[m1, m2]`: the tokens preceding `BI` are the ones
discarded (by the buffer clear on `BI`). -/
theorem claim_c3_counterexample :
    (runGrouper "" [Obj.operand "m1", Obj.operand "m2", Obj.op "BI",
        Obj.operand "d1", Obj.op "ID", Obj.operand "p",
        Obj.op "EI"]).instructions =
      [Instr.inlineImage ⟨[Obj.operand "d1"], Obj.operand "p"⟩] ∧
    [Obj.operand "d1"] ≠ [Obj.operand "m1", Obj.operand "m2"] :=
  ⟨rfl, by decide⟩

/-- C3 (amended): feeding the grouper (empty whitelist, initial state)
the tokens `[m1, m2, BI, d1, ID, p, EI]` yields exactly one
`ContentStreamInlineImage` whose metadata is `[d1]` — the tokens between
`BI` and `ID` — and whose image data is `p`; the tokens `m1, m2`
preceding `BI` are discarded and not stored as metadata. -/
theorem claim_c3_inline_image (m1 m2 d1 p : String) :
    (runGrouper "" [Obj.operand m1, Obj.operand m2, Obj.op "BI",
        Obj.operand d1, Obj.op "ID", Obj.operand p,
        Obj.op "EI"]).instructions =
      [Instr.inlineImage ⟨[Obj.operand d1], Obj.operand p⟩] :=
  rfl

/-! ### Inline-image mode lemmas (C4) -/

theorem handleObject_parsing_sticky (g : OperandGrouper) (obj : Obj)
    (h : g.parsing_inline_image = true) :
    (g.handleObject obj).parsing_inline_image = true ∧
    ((g.handleObject obj).instructions = g.instructions ∨
      ∃ csii, (g.handleObject obj).instructions =
        g.instructions ++ [Instr.inlineImage csii]) := by
  cases obj with
  | operand b => exact ⟨h, Or.inl rfl⟩
  | op name =>
    simp only [OperandGrouper.handleObject]
    split_ifs <;>
      first
        | exact ⟨h, Or.inl rfl⟩
        | exact ⟨rfl, Or.inl rfl⟩
        | exact ⟨h, Or.inr ⟨_, rfl⟩⟩

theorem foldl_parsing_sticky (objs : List Obj) (g : OperandGrouper)
    (h : g.parsing_inline_image = true) :
    (objs.foldl OperandGrouper.handleObject g).parsing_inline_image = true ∧
    ∀ i ∈ (objs.foldl OperandGrouper.handleObject g).instructions,
      i ∈ g.instructions ∨ ∃ csii, i = Instr.inlineImage csii := by
  induction objs generalizing g with
  | nil => exact ⟨h, fun i hi => Or.inl hi⟩
  | cons o rest ih =>
    obtain ⟨hp, hins⟩ := handleObject_parsing_sticky g o h
    obtain ⟨hp', hins'⟩ := ih (g.handleObject o) hp
    refine ⟨hp', fun i hi => ?_⟩
    rcases hins' i hi with hmem | hex
    · rcases hins with heq | ⟨csii, heq⟩
      · rw [heq] at hmem
        exact Or.inl hmem
      · rw [heq] at hmem
        rcases List.mem_append.mp hmem with h1 | h2
        · exact Or.inl h1
        · exact Or.inr ⟨csii, by simpa using h2⟩
    · exact Or.inr hex

theorem handleObject_swallow (g : OperandGrouper) (name : String)
    (h : g.parsing_inline_image = true) (hid : name ≠ "ID")
    (hei : name ≠ "EI") :
    (g.handleObject (Obj.op name)).tokens = [] ∧
    (g.handleObject (Obj.op name)).instructions = g.instructions := by
  simp only [OperandGrouper.handleObject]
  split_ifs <;> simp_all

/-- C4: an unfiltered `BI` sets `parsing_inline_image`; once set, the
flag survives every further token, every instruction appended from then
on is an inline-image instruction (never an ordinary `Instruction`), and
any single operator other than `ID`/`EI` processed in that mode is
swallowed: the pending buffer is cleared and nothing is emitted. -/
theorem claim_c4_inline_mode_is_permanent :
    (∀ g : OperandGrouper, g.whitelist = [] →
      (g.handleObject (Obj.op "BI")).parsing_inline_image = true) ∧
    (∀ (g : OperandGrouper) (objs : List Obj),
      g.parsing_inline_image = true →
      (objs.foldl OperandGrouper.handleObject g).parsing_inline_image = true ∧
      ∀ i ∈ (objs.foldl OperandGrouper.handleObject g).instructions,
        i ∈ g.instructions ∨ ∃ csii, i = Instr.inlineImage csii) ∧
    (∀ (g : OperandGrouper) (name : String),
      g.parsing_inline_image = true → name ≠ "ID" → name ≠ "EI" →
      (g.handleObject (Obj.op name)).tokens = [] ∧
      (g.handleObject (Obj.op name)).instructions = g.instructions) := by
  refine ⟨fun g hw => ?_, fun g objs h => foldl_parsing_sticky objs g h,
    fun g name h h1 h2 => handleObject_swallow g name h h1 h2⟩
  simp [OperandGrouper.handleObject, filterDiscards, hw]

/-- Witness for C4: the grouper right after a `BI` from the initial
state, then fed `x Tj EI q`: the flag stays set, nothing but
inline-image instructions appear, and `Tj` is swallowed. -/
theorem claim_c4_inline_mode_is_permanent_witness :
    (((OperandGrouper.init "").handleObject
        (Obj.op "BI")).parsing_inline_image = true) ∧
    (([Obj.operand "x", Obj.op "Tj", Obj.op "EI", Obj.op "q"].foldl
        OperandGrouper.handleObject
        ((OperandGrouper.init "").handleObject
          (Obj.op "BI"))).parsing_inline_image = true) ∧
    ((((OperandGrouper.init "").handleObject (Obj.op "BI")).handleObject
        (Obj.op "Tj")).instructions =
      ((OperandGrouper.init "").handleObject (Obj.op "BI")).instructions) :=
  ⟨claim_c4_inline_mode_is_permanent.1 (OperandGrouper.init "") rfl,
    (claim_c4_inline_mode_is_permanent.2.1
      ((OperandGrouper.init "").handleObject (Obj.op "BI"))
      [Obj.operand "x", Obj.op "Tj", Obj.op "EI", Obj.op "q"] rfl).1,
    (claim_c4_inline_mode_is_permanent.2.2
      ((OperandGrouper.init "").handleObject (Obj.op "BI"))
      "Tj" rfl (by decide) (by decide)).2⟩

/-- C5: with a non-empty whitelist, an operator whose name does not
start with `q`/`Q` and is not in the whitelist — and an operator whose
name starts with `q`/`Q` when neither `"q"` nor `"Q"` is whitelisted —
is discarded: the pending operand buffer is cleared and no instruction
is emitted (only the token count changes); an operator whose name starts
with `q`/`Q` is kept whenever `"q"` or `"Q"` is whitelisted, emitting
the ordinary instruction (outside inline-image mode). -/
theorem claim_c5_whitelist_filter :
    (∀ (g : OperandGrouper) (name : String), g.whitelist ≠ [] →
      firstIsQ name = false → g.whitelist.contains name = false →
      g.handleObject (Obj.op name) =
        { g with count := g.count + 1, tokens := [] }) ∧
    (∀ (g : OperandGrouper) (name : String), g.whitelist ≠ [] →
      firstIsQ name = true → g.whitelist.contains "q" = false →
      g.whitelist.contains "Q" = false →
      g.handleObject (Obj.op name) =
        { g with count := g.count + 1, tokens := [] }) ∧
    (∀ (g : OperandGrouper) (name : String),
      firstIsQ name = true →
      (g.whitelist.contains "q" = true ∨ g.whitelist.contains "Q" = true) →
      g.parsing_inline_image = false →
      (g.handleObject (Obj.op name)).instructions =
        g.instructions ++ [Instr.instr ⟨g.tokens, Obj.op name⟩]) := by
  refine ⟨fun g name hw hq hc => ?_, fun g name hw hq hcq hcQ => ?_,
    fun g name hq hin hpi => ?_⟩
  · have hne : g.whitelist.isEmpty = false := by
      cases hwl : g.whitelist <;> simp_all
    have hc' : name ∉ g.whitelist := by simpa using hc
    have hfd : filterDiscards g.whitelist name = true := by
      simp [filterDiscards, hne, hq, hc']
    simp [OperandGrouper.handleObject, hfd]
  · have hne : g.whitelist.isEmpty = false := by
      cases hwl : g.whitelist <;> simp_all
    have hcq' : "q" ∉ g.whitelist := by simpa using hcq
    have hcQ' : "Q" ∉ g.whitelist := by simpa using hcQ
    have hfd : filterDiscards g.whitelist name = true := by
      simp [filterDiscards, hne, hq, hcq', hcQ']
    simp [OperandGrouper.handleObject, hfd]
  · have hbi : name ≠ "BI" := by
      intro hbi
      rw [hbi] at hq
      simp [firstIsQ] at hq
    have hfd : filterDiscards g.whitelist name = false := by
      rcases hin with h | h
      · have hmem : "q" ∈ g.whitelist := by simpa using h
        simp [filterDiscards, hq, hmem]
      · have hmem : "Q" ∈ g.whitelist := by simpa using h
        simp [filterDiscards, hq, hmem]
    simp [OperandGrouper.handleObject, hfd, hbi, hpi]

/-- Witness for C5: `cm` is dropped against whitelist `["q"]`, `q*` is
dropped against whitelist `["cm"]`, and `Q` is kept against whitelist
`["q"]`. -/
theorem claim_c5_whitelist_filter_witness :
    ({ OperandGrouper.init "q" with
        tokens := [Obj.operand "x"] }.handleObject (Obj.op "cm") =
      { OperandGrouper.init "q" with count := 1, tokens := [] }) ∧
    ({ OperandGrouper.init "cm" with
        tokens := [Obj.operand "x"] }.handleObject (Obj.op "q*") =
      { OperandGrouper.init "cm" with count := 1, tokens := [] }) ∧
    (({ OperandGrouper.init "q" with
        tokens := [Obj.operand "x"] }.handleObject (Obj.op "Q")).instructions =
      [Instr.instr ⟨[Obj.operand "x"], Obj.op "Q"⟩]) :=
  ⟨claim_c5_whitelist_filter.1
      { OperandGrouper.init "q" with tokens := [Obj.operand "x"] } "cm"
      (by decide) (by decide) (by decide),
    claim_c5_whitelist_filter.2.1
      { OperandGrouper.init "cm" with tokens := [Obj.operand "x"] } "q*"
      (by decide) (by decide) (by decide) (by decide),
    claim_c5_whitelist_filter.2.2
      { OperandGrouper.init "q" with tokens := [Obj.operand "x"] } "Q"
      (by decide) (Or.inl (by decide)) (by decide)⟩

/-! ### End-of-stream lemmas (C6) -/

theorem handleObject_warning (g : OperandGrouper) (obj : Obj) :
    (g.handleObject obj).warning = g.warning := by
  cases obj with
  | operand b => rfl
  | op name =>
    simp only [OperandGrouper.handleObject]
    split_ifs <;> rfl

theorem foldl_warning (objs : List Obj) (g : OperandGrouper) :
    (objs.foldl OperandGrouper.handleObject g).warning = g.warning := by
  induction objs generalizing g with
  | nil => rfl
  | cons o rest ih => rw [List.foldl_cons, ih, handleObject_warning]

/-- C6: after end-of-stream finalization the grouper's warning is
`"Unexpected end of stream"` exactly when the pending token buffer was
non-empty at finalization (it is the empty string otherwise, since
nothing else ever writes it), and finalization — a total function that
raises nothing — leaves the already-emitted instruction sequence
unchanged. -/
theorem claim_c6_eof_warning (operators : String) (stream : List Obj) :
    ((runGrouper operators stream).warning = "Unexpected end of stream" ↔
      (stream.foldl OperandGrouper.handleObject
        (OperandGrouper.init operators)).tokens ≠ []) ∧
    (runGrouper operators stream).instructions =
      (stream.foldl OperandGrouper.handleObject
        (OperandGrouper.init operators)).instructions := by
  have hw : (stream.foldl OperandGrouper.handleObject
      (OperandGrouper.init operators)).warning = "" :=
    foldl_warning stream (OperandGrouper.init operators)
  rw [runGrouper]
  rw [OperandGrouper.handleEOF]
  split_ifs with ht
  · refine ⟨?_, rfl⟩
    rw [hw]
    constructor
    · intro hfalse
      exact absurd hfalse.symm (by decide)
    · intro hne
      exact absurd (List.isEmpty_iff.mp ht) hne
  · refine ⟨?_, rfl⟩
    constructor
    · intro _
      exact fun he => ht (by simp [he])
    · intro _
      rfl

/-! ### Indexed access (C7) -/

/-- `ContentStreamInstruction.__getitem__` (lines 248-256): index 0 or
-2 yields the operand list, 1 or -1 the operator, anything else raises
`IndexError` with the offending index in the message. -/
def ContentStreamInstruction.getitem (csi : ContentStreamInstruction)
    (index : Int) : Except String (List Obj ⊕ Obj) :=
  if index = 0 ∨ index = -2 then .ok (.inl csi.operands)
  else if index = 1 ∨ index = -1 then .ok (.inr csi.operator_)
  else .error ("Invalid index " ++ toString index)

/-- `ContentStreamInstruction.__len__` (line 257): always 2. -/
def ContentStreamInstruction.len (csi : ContentStreamInstruction) : Nat := 2

/-- `ContentStreamInlineImage.__getitem__` (lines 269-277): same
contract over the derived operands/operator. -/
def ContentStreamInlineImage.getitem (csii : ContentStreamInlineImage)
    (index : Int) : Except String (List PdfInlineImage ⊕ Obj) :=
  if index = 0 ∨ index = -2 then .ok (.inl csii.get_operands)
  else if index = 1 ∨ index = -1 then .ok (.inr csii.get_operator)
  else .error ("Invalid index " ++ toString index)

/-- `ContentStreamInlineImage.__len__` (line 278): always 2. -/
def ContentStreamInlineImage.len (csii : ContentStreamInlineImage) : Nat := 2

/-- C7: for both instruction types, index 0 and -2 yield the operands,
1 and -1 the operator, the length is always 2 however many operands are
held, and every other integer index fails with an `IndexError` naming
the index. -/
theorem claim_c7_indexing :
    (∀ csi : ContentStreamInstruction,
      csi.getitem 0 = .ok (.inl csi.operands) ∧
      csi.getitem (-2) = .ok (.inl csi.operands) ∧
      csi.getitem 1 = .ok (.inr csi.operator_) ∧
      csi.getitem (-1) = .ok (.inr csi.operator_) ∧
      csi.len = 2 ∧
      ∀ i : Int, i ≠ 0 → i ≠ 1 → i ≠ -1 → i ≠ -2 →
        csi.getitem i = .error ("Invalid index " ++ toString i)) ∧
    (∀ csii : ContentStreamInlineImage,
      csii.getitem 0 = .ok (.inl csii.get_operands) ∧
      csii.getitem (-2) = .ok (.inl csii.get_operands) ∧
      csii.getitem 1 = .ok (.inr csii.get_operator) ∧
      csii.getitem (-1) = .ok (.inr csii.get_operator) ∧
      csii.len = 2 ∧
      ∀ i : Int, i ≠ 0 → i ≠ 1 → i ≠ -1 → i ≠ -2 →
        csii.getitem i = .error ("Invalid index " ++ toString i)) := by
  constructor
  · intro csi
    refine ⟨rfl, rfl, rfl, rfl, rfl, fun i h0 h1 hm1 hm2 => ?_⟩
    rw [ContentStreamInstruction.getitem, if_neg (by simp [h0, hm2]),
      if_neg (by simp [h1, hm1])]
  · intro csii
    refine ⟨rfl, rfl, rfl, rfl, rfl, fun i h0 h1 hm1 hm2 => ?_⟩
    rw [ContentStreamInlineImage.getitem, if_neg (by simp [h0, hm2]),
      if_neg (by simp [h1, hm1])]

/-- Witness for C7 at out-of-range indices 5 and -3. -/
theorem claim_c7_indexing_witness :
    (ContentStreamInstruction.getitem ⟨[], Obj.op "q"⟩ 5 =
      .error "Invalid index 5") ∧
    (ContentStreamInlineImage.getitem ⟨[], Obj.operand "d"⟩ (-3) =
      .error "Invalid index -3") :=
  ⟨(claim_c7_indexing.1 ⟨[], Obj.op "q"⟩).2.2.2.2.2 5
      (by decide) (by decide) (by decide) (by decide),
    (claim_c7_indexing.2 ⟨[], Obj.operand "d"⟩).2.2.2.2.2 (-3)
      (by decide) (by decide) (by decide) (by decide)⟩

/-! ### Serialization format (C8) -/

theorem renderOperands_join_all (l : List Obj) (s : String) :
    renderOperands l ++ s = joinSep " " (l.map Obj.unparseBinary ++ [s]) := by
  induction l with
  | nil => simp [renderOperands, joinSep]
  | cons o rest ih =>
    cases rest with
    | nil => simp [renderOperands, joinSep, String.append_assoc]
    | cons o2 rest2 =>
      have h1 : renderOperands (o :: o2 :: rest2) ++ s =
          o.unparseBinary ++ " " ++ (renderOperands (o2 :: rest2) ++ s) := by
        simp [renderOperands, String.append_assoc]
      rw [h1, ih]
      simp [joinSep_cons₂, List.cons_append, String.append_assoc]

/-- C8: a native instruction serializes as each operand's byte form
separated by single spaces with the operator's byte form last and no
trailing separator, and `unparse_content_stream` joins the renderings
of successive instructions with exactly one newline — no leading or
trailing newline, an empty input yielding empty bytes. -/
theorem claim_c8_byte_layout :
    (∀ csi : ContentStreamInstruction,
      renderCSI csi =
        joinSep " " (csi.operands.map Obj.unparseBinary ++
          [csi.operator_.unparseBinary])) ∧
    (∀ l : List Instr,
      unparse_content_stream (l.map instrToItem) =
        Except.ok (joinSep "\n" (l.map renderInstr))) ∧
    unparse_content_stream [] = Except.ok "" :=
  ⟨fun csi => by rw [renderCSI, renderOperands_join_all],
    unparse_map_instrToItem, rfl⟩

/-! ### Fallback-path errors (C9, C10) -/

/-- The number of fallback-path items in a serializer input (native
items are recognized before the fallback counter `n` is ever touched). -/
def countFallback : List CSItem → Nat
  | [] => 0
  | CSItem.fallback _ :: rest => countFallback rest + 1
  | _ :: rest => countFallback rest

/-- When serialization of a list of items succeeds, the fallback counter
has advanced by exactly the number of fallback items. -/
theorem foldlM_fallback_counter (items : List CSItem) :
    ∀ (st st' : String × String × Nat),
      List.foldlM unparseStep st items = Except.ok st' →
      st'.2.2 = st.2.2 + countFallback items := by
  induction items with
  | nil =>
    intro st st' h
    have h' : Except.ok st = Except.ok st' := h
    cases h'
    simp [countFallback]
  | cons it rest ih =>
    intro st st' h
    rw [List.foldlM_cons] at h
    cases it with
    | native csi =>
      have := ih _ _ h
      simpa [countFallback] using this
    | nativeII csii =>
      have := ih _ _ h
      simpa [countFallback] using this
    | fallback elems =>
      have hstep : unparseStep st (CSItem.fallback elems) =
          match fallbackUnparse st.2.2 elems with
          | Except.ok s => Except.ok (st.1 ++ st.2.1 ++ s, "\n", st.2.2 + 1)
          | Except.error e => Except.error e := rfl
      rw [hstep] at h
      cases hfb : fallbackUnparse st.2.2 elems with
      | ok s =>
        rw [hfb] at h
        have := ih _ _ h
        simp only [countFallback] at this ⊢
        omega
      | error e =>
        rw [hfb] at h
        exact Except.noConfusion h

/-- C9: a fallback-path item that is not a 2-element sequence aborts the
serialization with the malformed-instruction error, whose reported
position is the 0-based count of previously completed fallback-path
items (native items processed before it do not increment that count). -/
theorem claim_c9_malformed_position (pre : List CSItem) (bad : List PyVal)
    (rest : List CSItem) (st : String × String × Nat)
    (hpre : List.foldlM unparseStep ("", "", 0) pre = Except.ok st)
    (hbad : bad.length ≠ 2)
    (hsize : countFallback pre < 4294967296) :
    unparse_content_stream (pre ++ CSItem.fallback bad :: rest) =
      Except.error (SerError.malformed
        ("Wrong number of operands at content stream instruction " ++
          toString (countFallback pre) ++ "; expected 2")) := by
  have hn : st.2.2 = countFallback pre := by
    simpa using foldlM_fallback_counter pre _ _ hpre
  have hmod : st.2.2 % 4294967296 = countFallback pre := by
    rw [hn]
    exact Nat.mod_eq_of_lt hsize
  have hfb : fallbackUnparse st.2.2 bad =
      Except.error (SerError.malformed
        ("Wrong number of operands at content stream instruction " ++
          toString (countFallback pre) ++ "; expected 2")) := by
    rw [← hmod]
    rcases bad with _ | ⟨a, _ | ⟨b, _ | ⟨c, t⟩⟩⟩
    · rfl
    · rfl
    · exact absurd rfl hbad
    · rfl
  have hstep : unparseStep st (CSItem.fallback bad) =
      Except.error (SerError.malformed
        ("Wrong number of operands at content stream instruction " ++
          toString (countFallback pre) ++ "; expected 2")) := by
    have hdef : unparseStep st (CSItem.fallback bad) =
        match fallbackUnparse st.2.2 bad with
        | Except.ok s => Except.ok (st.1 ++ st.2.1 ++ s, "\n", st.2.2 + 1)
        | Except.error e => Except.error e := rfl
    rw [hdef, hfb]
  rw [unparse_content_stream, List.foldlM_append, hpre]
  show Except.map (fun st => st.1)
    (List.foldlM unparseStep st (CSItem.fallback bad :: rest)) = _
  rw [List.foldlM_cons, hstep]
  rfl

/-- Witness for C9: one successful fallback item, then an empty (hence
not 2-element) item: the error reports position 1. -/
theorem claim_c9_malformed_position_witness :
    (List.foldlM unparseStep ("", "", 0)
        [CSItem.fallback [PyVal.list [], PyVal.str "q"]] =
      Except.ok ("q", "\n", 1)) ∧
    ([] : List PyVal).length ≠ 2 ∧
    countFallback [CSItem.fallback [PyVal.list [], PyVal.str "q"]] <
      4294967296 ∧
    unparse_content_stream
        ([CSItem.fallback [PyVal.list [], PyVal.str "q"]] ++
          CSItem.fallback [] :: []) =
      Except.error (SerError.malformed
        "Wrong number of operands at content stream instruction 1; expected 2") :=
  ⟨rfl, by decide, by decide,
    claim_c9_malformed_position [CSItem.fallback [PyVal.list [], PyVal.str "q"]]
      [] [] ("q", "\n", 1) rfl (by decide) (by decide)⟩

/-- C10: in the fallback path the second element of a 2-element pair is
coerced to an operator: a text or raw-byte value yields an operator
token built from its content (up to the C-string NUL truncation) and
serialization proceeds — concretely the pair `(["a", "b"], "Tj")`
serializes to the encoded operand bytes followed by the constructed `Tj`
operator's bytes — while any other value must already be an
operator-typed handle, else the call fails with the type-mismatch error
naming Operator, bytes and str. -/
theorem claim_c10_operator_coercion :
    (∀ (n : Nat) (s : String),
      resolveOperator n (PyVal.str s) = Except.ok (Obj.op (cStr s))) ∧
    (∀ (n : Nat) (b : String),
      resolveOperator n (PyVal.bytes b) = Except.ok (Obj.op (cStr b))) ∧
    (∀ (n : Nat) (o : Obj), o.isOperator = false →
      resolveOperator n (PyVal.obj o) = Except.error (SerError.typeMismatch
        ("At content stream instruction " ++ toString (n % 4294967296) ++
          ", the operator is not of type pikepdf.Operator, bytes or str"))) ∧
    unparse_content_stream
        [CSItem.fallback [PyVal.list [PyVal.str "a", PyVal.str "b"],
          PyVal.str "Tj"]] =
      Except.ok "(a) (b) Tj" := by
  refine ⟨fun n s => rfl, fun n b => rfl, fun n o h => ?_, rfl⟩
  simp [resolveOperator, h]

/-- Witness for C10: a non-operator handle in operator position fails
with the type-mismatch message at position 0. -/
theorem claim_c10_operator_coercion_witness :
    resolveOperator 0 (PyVal.obj (Obj.operand "x")) =
      Except.error (SerError.typeMismatch
        "At content stream instruction 0, the operator is not of type pikepdf.Operator, bytes or str") :=
  claim_c10_operator_coercion.2.2.1 0 (Obj.operand "x") rfl

end Pikepdf
